import Mathlib

/-!
Verification of the portfolio P&L aggregation and display logic of the BPP
mobile application, shallowly embedded from `src/app/(tabs)/portfolio.tsx`.

Modelling conventions:
* JavaScript numbers are modelled as exact rationals (`ℚ`); the spec and its
  scenarios are stated in exact arithmetic.
* A numeric field of a server-supplied `PositionRow` record may be missing or
  non-numeric at runtime (the aggregator defensively coerces such values with
  `Number(x) || 0`).  Every numeric field is therefore modelled as `Option ℚ`:
  `some q` is a finite numeric value, `none` is a missing / non-numeric value
  (which `Number` turns into `NaN`).  For the two nullable average-entry-price
  fields, `none` also covers the explicit `null` of the TypeScript type.
* `Number(x) || 0` is embedded as `numOr0`: a numeric value is kept (note that
  `0 || 0` is `0`, so the `|| 0` fallback is the identity on numbers), a
  missing / non-numeric value becomes `0`.
* JavaScript comparisons `x > c`, `x < c`, `x >= c` on a possibly-undefined
  value are embedded as `jsGt`, `jsLt`, `jsGe`: any comparison with `NaN` /
  `undefined` is `false`.
-/

namespace BPP

/-- The two accounting modes, from `type PnlMode = 'NET' | 'BROKER'`. -/
inductive PnlMode where
  | NET
  | BROKER
deriving DecidableEq, Repr

/-- A per-symbol position record, from the `PositionRow` type of
`portfolio.tsx` (lines 25–46).  Numeric fields are `Option ℚ`: `none` models a
missing / non-numeric runtime value (or `null` for the nullable
average-entry-price fields). -/
structure PositionRow where
  symbol : String
  amount : Option ℚ
  current_price_idr : Option ℚ
  current_value_idr : Option ℚ
  total_buy_idr : Option ℚ
  total_sell_idr : Option ℚ
  net_invested_idr : Option ℚ
  net_pnl_idr : Option ℚ
  net_pnl_percent : Option ℚ
  net_avg_entry_price_idr : Option ℚ
  broker_cost_basis_idr : Option ℚ
  broker_avg_entry_price_idr : Option ℚ
  broker_realized_pnl_idr : Option ℚ
  broker_unrealized_pnl_idr : Option ℚ
  broker_unrealized_pnl_percent : Option ℚ
deriving DecidableEq, Repr

/-- The portfolio-level totals returned by the aggregation (the object built
on line 133 of `portfolio.tsx`). -/
structure PortfolioTotals where
  totalValue : ℚ
  base : ℚ
  pnlValue : ℚ
  pnlPercent : ℚ
  realizedTotal : ℚ
deriving DecidableEq, Repr

/-- `Number(x) || 0`: a numeric value passes through, a missing or
non-numeric value (`NaN` after `Number`) becomes `0`. -/
def numOr0 : Option ℚ → ℚ
  | none => 0
  | some q => q

/-- JavaScript `x > c` where `x` may be `undefined`/`NaN` (then `false`). -/
def jsGt : Option ℚ → ℚ → Bool
  | none, _ => false
  | some q, c => c < q

/-- JavaScript `x < c` where `x` may be `undefined`/`NaN` (then `false`). -/
def jsLt : Option ℚ → ℚ → Bool
  | none, _ => false
  | some q, c => q < c

/-- JavaScript `x >= c` where `x` may be `undefined`/`NaN` (then `false`). -/
def jsGe : Option ℚ → ℚ → Bool
  | none, _ => false
  | some q, c => c ≤ q

/-- Colour constant `POSITIVE` (line 17). -/
def POSITIVE : String := "#22C55E"

/-- Colour constant `NEGATIVE` (line 18). -/
def NEGATIVE : String := "#EF4444"

/-- Colour constant `TEXT_MUTED` (line 15). -/
def TEXT_MUTED : String := "#9CA3AF"

/-- The mutable accumulator of the single `positions.forEach` pass inside the
`totals` `useMemo` (lines 113–116): `totalValue`, `base`, `pnlValue`,
`realizedTotal`, all initialised to `0`. -/
structure Acc where
  totalValue : ℚ
  base : ℚ
  pnlValue : ℚ
  realizedTotal : ℚ
deriving DecidableEq, Repr

/-- The body of the `forEach` callback (lines 118–129): always add the coerced
`current_value_idr`; in NET mode add `total_buy_idr` to `base` and
`net_pnl_idr` to `pnlValue`; in BROKER mode add `broker_cost_basis_idr` to
`base`, `broker_unrealized_pnl_idr` to `pnlValue` and `broker_realized_pnl_idr`
to `realizedTotal`. -/
def totalsStep (pnlMode : PnlMode) (acc : Acc) (p : PositionRow) : Acc :=
  let acc := { acc with totalValue := acc.totalValue + numOr0 p.current_value_idr }
  match pnlMode with
  | .NET =>
      { acc with
        base := acc.base + numOr0 p.total_buy_idr
        pnlValue := acc.pnlValue + numOr0 p.net_pnl_idr }
  | .BROKER =>
      { acc with
        base := acc.base + numOr0 p.broker_cost_basis_idr
        pnlValue := acc.pnlValue + numOr0 p.broker_unrealized_pnl_idr
        realizedTotal := acc.realizedTotal + numOr0 p.broker_realized_pnl_idr }

/-- Finalisation (lines 131–133): `pnlPercent = base > 0 ? (pnlValue / base) * 100 : 0`,
then package the five totals. -/
def finalizeTotals (acc : Acc) : PortfolioTotals :=
  { totalValue := acc.totalValue
    base := acc.base
    pnlValue := acc.pnlValue
    pnlPercent := if 0 < acc.base then acc.pnlValue / acc.base * 100 else 0
    realizedTotal := acc.realizedTotal }

/-- The `totals` computation (lines 112–134): a single left-to-right
accumulation pass over `positions`, then finalisation. -/
def totals (positions : List PositionRow) (pnlMode : PnlMode) : PortfolioTotals :=
  finalizeTotals (positions.foldl (totalsStep pnlMode) ⟨0, 0, 0, 0⟩)

/-- The per-position display tuple computed by `PositionRowItem`
(lines 319–332): the mode-selected P&L value, P&L percent, average entry
price, plus the derived colour and sign. -/
structure PositionView where
  pnlValue : Option ℚ
  pnlPercent : Option ℚ
  avgEntryPrice : Option ℚ
  sign : String
  pnlColor : String
deriving DecidableEq, Repr

/-- `positionView` (spec §4.1), embedded from the body of `PositionRowItem`
(lines 319–332): `isNet = pnlMode === 'NET'`, `mainPnlValue`,
`mainPnlPercent`, `pnlColor`, `sign`, `avgEntry`. -/
def positionView (position : PositionRow) (pnlMode : PnlMode) : PositionView :=
  let isNet : Bool := pnlMode = .NET
  let mainPnlValue :=
    if isNet then position.net_pnl_idr else position.broker_unrealized_pnl_idr
  let mainPnlPercent :=
    if isNet then position.net_pnl_percent else position.broker_unrealized_pnl_percent
  let pnlColor :=
    if jsGt mainPnlValue 0 then POSITIVE
    else if jsLt mainPnlValue 0 then NEGATIVE
    else TEXT_MUTED
  let sign := if jsGe mainPnlValue 0 then "+" else ""
  let avgEntry :=
    if isNet then position.net_avg_entry_price_idr
    else position.broker_avg_entry_price_idr
  { pnlValue := mainPnlValue
    pnlPercent := mainPnlPercent
    avgEntryPrice := avgEntry
    sign := sign
    pnlColor := pnlColor }

/-- The average-entry line of the rendered row (lines 352–357): the `Text`
node is emitted only under the guard `avgEntry !== null`; `none` means the
field is omitted from the rendered output, `some v` means a line showing the
value `v` is present. -/
def avgEntryRendered (position : PositionRow) (pnlMode : PnlMode) : Option ℚ :=
  match (positionView position pnlMode).avgEntryPrice with
  | none => none
  | some v => some v

/-- The sign displayed in front of the portfolio-level P&L value
(line 208): `totals.pnlValue >= 0 ? '+' : ''`. -/
def totalsSign (t : PortfolioTotals) : String :=
  if 0 ≤ t.pnlValue then "+" else ""

/-- `totalColor` (lines 137–138): positive P&L is green, negative red,
otherwise muted. -/
def totalColor (t : PortfolioTotals) : String :=
  if 0 < t.pnlValue then POSITIVE
  else if t.pnlValue < 0 then NEGATIVE
  else TEXT_MUTED

/-- Per-mode contribution of one position to `base`. -/
def modeBase : PnlMode → PositionRow → ℚ
  | .NET, p => numOr0 p.total_buy_idr
  | .BROKER, p => numOr0 p.broker_cost_basis_idr

/-- Per-mode contribution of one position to `pnlValue`. -/
def modePnl : PnlMode → PositionRow → ℚ
  | .NET, p => numOr0 p.net_pnl_idr
  | .BROKER, p => numOr0 p.broker_unrealized_pnl_idr

/-- Per-mode contribution of one position to `realizedTotal`. -/
def modeRealized : PnlMode → PositionRow → ℚ
  | .NET, _ => 0
  | .BROKER, p => numOr0 p.broker_realized_pnl_idr

lemma modeBase_net : modeBase .NET = fun p => numOr0 p.total_buy_idr := rfl

lemma modeBase_broker : modeBase .BROKER = fun p => numOr0 p.broker_cost_basis_idr := rfl

lemma modePnl_net : modePnl .NET = fun p => numOr0 p.net_pnl_idr := rfl

lemma modePnl_broker : modePnl .BROKER = fun p => numOr0 p.broker_unrealized_pnl_idr := rfl

lemma modeRealized_net : modeRealized .NET = fun _ => (0 : ℚ) := rfl

lemma modeRealized_broker : modeRealized .BROKER = fun p => numOr0 p.broker_realized_pnl_idr := rfl

lemma foldl_totalsStep (m : PnlMode) (ps : List PositionRow) (a : Acc) :
    ps.foldl (totalsStep m) a =
      { totalValue := a.totalValue + (ps.map (fun p => numOr0 p.current_value_idr)).sum
        base := a.base + (ps.map (modeBase m)).sum
        pnlValue := a.pnlValue + (ps.map (modePnl m)).sum
        realizedTotal := a.realizedTotal + (ps.map (modeRealized m)).sum } := by
  induction ps generalizing a with
  | nil => simp
  | cons p ps ih =>
      cases m <;>
        simp only [List.foldl_cons, ih, totalsStep, modeBase_net, modeBase_broker,
          modePnl_net, modePnl_broker, modeRealized_net, modeRealized_broker,
          List.map_cons, List.sum_cons, Acc.mk.injEq] <;>
        exact ⟨by ring, by ring, by ring, by ring⟩

/-- The accumulated totals are the list sums of the per-position, per-mode
contributions. -/
lemma totals_eq_sums (ps : List PositionRow) (m : PnlMode) :
    totals ps m =
      { totalValue := (ps.map (fun p => numOr0 p.current_value_idr)).sum
        base := (ps.map (modeBase m)).sum
        pnlValue := (ps.map (modePnl m)).sum
        pnlPercent :=
          if 0 < (ps.map (modeBase m)).sum then
            (ps.map (modePnl m)).sum / (ps.map (modeBase m)).sum * 100
          else 0
        realizedTotal := (ps.map (modeRealized m)).sum } := by
  simp [totals, foldl_totalsStep, finalizeTotals]

/-- Scenario A position of spec §8: `current_value = 100`, `total_buy = 80`,
`net_pnl = 20`, `broker_cost_basis = 50`, `broker_unrealized_pnl = 10`,
`broker_realized_pnl = 5` (remaining fields irrelevant to the totals). -/
def scenarioA : PositionRow :=
  { symbol := "BTC"
    amount := some 1
    current_price_idr := some 100
    current_value_idr := some 100
    total_buy_idr := some 80
    total_sell_idr := some 0
    net_invested_idr := some 80
    net_pnl_idr := some 20
    net_pnl_percent := some 25
    net_avg_entry_price_idr := some 80
    broker_cost_basis_idr := some 50
    broker_avg_entry_price_idr := some 50
    broker_realized_pnl_idr := some 5
    broker_unrealized_pnl_idr := some 10
    broker_unrealized_pnl_percent := some 20 }

/-- **C1.** For every list of position records, aggregation in NET mode gives
`base` = Σ `total_buy`, `pnlValue` = Σ `net_pnl` and `realizedTotal = 0`; in
BROKER mode it gives `base` = Σ `broker_cost_basis`, `pnlValue` =
Σ `broker_unrealized_pnl`, `realizedTotal` = Σ `broker_realized_pnl`; and on
the single Scenario A position, NET mode yields
`{totalValue := 100, base := 80, pnlValue := 20, pnlPercent := 25, realizedTotal := 0}`. -/
theorem c1_aggregate_mode_sums (ps : List PositionRow) :
    ((totals ps .NET).base = (ps.map (fun p => numOr0 p.total_buy_idr)).sum ∧
     (totals ps .NET).pnlValue = (ps.map (fun p => numOr0 p.net_pnl_idr)).sum ∧
     (totals ps .NET).realizedTotal = 0) ∧
    ((totals ps .BROKER).base = (ps.map (fun p => numOr0 p.broker_cost_basis_idr)).sum ∧
     (totals ps .BROKER).pnlValue = (ps.map (fun p => numOr0 p.broker_unrealized_pnl_idr)).sum ∧
     (totals ps .BROKER).realizedTotal = (ps.map (fun p => numOr0 p.broker_realized_pnl_idr)).sum) ∧
    totals [scenarioA] .NET =
      { totalValue := 100, base := 80, pnlValue := 20, pnlPercent := 25, realizedTotal := 0 } := by
  refine ⟨⟨?_, ?_, ?_⟩, ⟨?_, ?_, ?_⟩, ?_⟩ <;>
    simp [totals_eq_sums, modeBase_net, modeBase_broker, modePnl_net, modePnl_broker,
      modeRealized_net, modeRealized_broker, scenarioA, numOr0]
  all_goals norm_num

/-- **C2.** For every list of position records and every mode, `totalValue` is
the sum of the (coerced) `current_value` field over all positions, and it is
the same in both modes. -/
theorem c2_totalValue_mode_independent (ps : List PositionRow) (m m' : PnlMode) :
    (totals ps m).totalValue = (ps.map (fun p => numOr0 p.current_value_idr)).sum ∧
    (totals ps m).totalValue = (totals ps m').totalValue := by
  constructor
  · rw [totals_eq_sums]
  · rw [totals_eq_sums, totals_eq_sums]

/-- **C3.** For every list of position records and every mode, `pnlPercent`
equals `(pnlValue / base) * 100` when the accumulated `base` is strictly
positive and is exactly `0` otherwise; in particular `base = 0` (even with a
nonzero `pnlValue`) yields exactly `0`. -/
theorem c3_pnlPercent_division_guard (ps : List PositionRow) (m : PnlMode) :
    ((totals ps m).pnlPercent =
      if 0 < (totals ps m).base then
        (totals ps m).pnlValue / (totals ps m).base * 100
      else 0) ∧
    ((totals ps m).base = 0 → (totals ps m).pnlPercent = 0) := by
  constructor
  · rw [totals_eq_sums]
  · intro h
    rw [totals_eq_sums] at h ⊢
    simp only [h] at *
    simp [h]

/-- Witness for **C3**: a position with zero lifetime buys but nonzero
lifetime P&L gives `base = 0`, `pnlValue = 20` and `pnlPercent = 0`. -/
theorem c3_pnlPercent_division_guard_witness :
    (totals [{ scenarioA with total_buy_idr := some 0 }] .NET).base = 0 ∧
    (totals [{ scenarioA with total_buy_idr := some 0 }] .NET).pnlValue = 20 ∧
    (totals [{ scenarioA with total_buy_idr := some 0 }] .NET).pnlPercent = 0 := by
  have hbase : (totals [{ scenarioA with total_buy_idr := some 0 }] .NET).base = 0 := by
    simp [totals_eq_sums, modeBase_net, scenarioA, numOr0]
  refine ⟨hbase, ?_, (c3_pnlPercent_division_guard
    [{ scenarioA with total_buy_idr := some 0 }] .NET).2 hbase⟩
  simp [totals_eq_sums, modePnl_net, scenarioA, numOr0]

/-- **C4.** On the empty position list, both modes return all five totals
equal to zero. -/
theorem c4_empty_list_all_zero :
    totals [] .NET = { totalValue := 0, base := 0, pnlValue := 0, pnlPercent := 0, realizedTotal := 0 } ∧
    totals [] .BROKER = { totalValue := 0, base := 0, pnlValue := 0, pnlPercent := 0, realizedTotal := 0 } := by
  constructor <;> simp [totals, finalizeTotals]

/-- Replace every missing / non-numeric aggregated field of a record by the
explicit numeric `0` that the defensive coercion produces. -/
def zeroMissing (p : PositionRow) : PositionRow :=
  { p with
    current_value_idr := some (numOr0 p.current_value_idr)
    total_buy_idr := some (numOr0 p.total_buy_idr)
    net_pnl_idr := some (numOr0 p.net_pnl_idr)
    broker_cost_basis_idr := some (numOr0 p.broker_cost_basis_idr)
    broker_unrealized_pnl_idr := some (numOr0 p.broker_unrealized_pnl_idr)
    broker_realized_pnl_idr := some (numOr0 p.broker_realized_pnl_idr) }

/-- **C5.** A record with missing / non-numeric numeric fields (e.g. a missing
`net_pnl`) contributes to the totals exactly as the same record with those
fields coerced to `0`: replacing the record in place leaves the totals of the
whole list unchanged, so the surrounding positions are all still accumulated
(the aggregation is total over such inputs by construction — `totals` is a
total function). -/
theorem c5_missing_fields_coerced_to_zero (ps qs : List PositionRow)
    (p : PositionRow) (m : PnlMode) :
    totals (ps ++ p :: qs) m = totals (ps ++ zeroMissing p :: qs) m := by
  have hc : ∀ f : PositionRow → Option ℚ,
      numOr0 (some (numOr0 (f p))) = numOr0 (f p) := by
    intro f; rfl
  rw [totals_eq_sums, totals_eq_sums]
  cases m <;>
    simp [modeBase_net, modeBase_broker, modePnl_net, modePnl_broker,
      modeRealized_net, modeRealized_broker, zeroMissing, hc]

/-- **C6.** `positionView` projects exactly the mode-selected fields: in NET
mode the net P&L value / percent / average entry, in BROKER mode the broker
unrealized P&L value / percent and broker average entry. -/
theorem c6_positionView_mode_projection (p : PositionRow) :
    ((positionView p .NET).pnlValue = p.net_pnl_idr ∧
     (positionView p .NET).pnlPercent = p.net_pnl_percent ∧
     (positionView p .NET).avgEntryPrice = p.net_avg_entry_price_idr) ∧
    ((positionView p .BROKER).pnlValue = p.broker_unrealized_pnl_idr ∧
     (positionView p .BROKER).pnlPercent = p.broker_unrealized_pnl_percent ∧
     (positionView p .BROKER).avgEntryPrice = p.broker_avg_entry_price_idr) :=
  ⟨⟨rfl, rfl, rfl⟩, ⟨rfl, rfl, rfl⟩⟩

/-- **C7.** If the mode-selected average entry price of a record is
null/absent, `positionView` returns `avgEntryPrice = none` and the rendered
average-entry line is omitted entirely (no zero or fabricated value is
shown); moreover, the aggregate totals of any list containing the record do
not depend on the average-entry-price fields at all (the record's other
fields are accumulated normally). -/
theorem c7_null_avg_entry_omitted (p : PositionRow) (m m' : PnlMode)
    (ps qs : List PositionRow) (v w : Option ℚ)
    (h : (match m with
          | .NET => p.net_avg_entry_price_idr
          | .BROKER => p.broker_avg_entry_price_idr) = none) :
    (positionView p m).avgEntryPrice = none ∧
    avgEntryRendered p m = none ∧
    totals (ps ++ { p with net_avg_entry_price_idr := v,
                           broker_avg_entry_price_idr := w } :: qs) m' =
      totals (ps ++ p :: qs) m' := by
  have hview : (positionView p m).avgEntryPrice = none := by
    cases m <;> simpa [positionView] using h
  refine ⟨hview, ?_, ?_⟩
  · simp [avgEntryRendered, hview]
  · rw [totals_eq_sums, totals_eq_sums]
    cases m' <;>
      simp [modeBase_net, modeBase_broker, modePnl_net, modePnl_broker,
        modeRealized_net, modeRealized_broker]

/-- Scenario C position of spec §8: like Scenario A but with
`broker_avg_entry_price = null`. -/
def scenarioC : PositionRow :=
  { scenarioA with symbol := "ETH", broker_avg_entry_price_idr := none }

/-- Witness for **C7**: in BROKER mode, the Scenario C position (null broker
average entry) yields an absent `avgEntryPrice`, an omitted rendered line, and
totals over a two-position list that ignore the average-entry fields. -/
theorem c7_null_avg_entry_omitted_witness :
    (positionView scenarioC .BROKER).avgEntryPrice = none ∧
    avgEntryRendered scenarioC .BROKER = none ∧
    totals [scenarioA, { scenarioC with net_avg_entry_price_idr := some 999,
                                        broker_avg_entry_price_idr := some 999 }] .BROKER =
      totals [scenarioA, scenarioC] .BROKER :=
  c7_null_avg_entry_omitted scenarioC .BROKER .BROKER [scenarioA] []
    (some 999) (some 999) rfl

/-- **C8, counterexample.** The claim predicts a displayed sign of `"-"` for a
negative P&L and the gain (green) colour for an exactly-zero P&L.  The code
disagrees on both counts at concrete inputs: with `net_pnl = -1` the sign is
the empty string (the minus surfaces only through number formatting), and
with `net_pnl = 0` the colour is the muted neutral colour, not the gain
colour. -/
theorem c8_sign_color_counterexample :
    ¬ ((positionView { scenarioA with net_pnl_idr := some (-1) } .NET).sign = "-" ∧
       (positionView { scenarioA with net_pnl_idr := some 0 } .NET).pnlColor = POSITIVE) := by
  intro h
  have h1 : (positionView { scenarioA with net_pnl_idr := some (-1) } .NET).sign = "" := by
    simp [positionView, scenarioA, jsGe, jsGt, jsLt]
  have h2 : (positionView { scenarioA with net_pnl_idr := some 0 } .NET).pnlColor
      = TEXT_MUTED := by
    simp [positionView, scenarioA, jsGe, jsGt, jsLt]
  rw [h1] at h
  exact absurd (h.2.symm.trans h2) (by simp [POSITIVE, TEXT_MUTED])

lemma positionView_sign_eq (p : PositionRow) (m : PnlMode) :
    (positionView p m).sign =
      if jsGe (positionView p m).pnlValue 0 then "+" else "" := by
  cases m <;> rfl

lemma positionView_color_eq (p : PositionRow) (m : PnlMode) :
    (positionView p m).pnlColor =
      if jsGt (positionView p m).pnlValue 0 then POSITIVE
      else if jsLt (positionView p m).pnlValue 0 then NEGATIVE
      else TEXT_MUTED := by
  cases m <;> rfl

/-- **C8, amended.** For a numeric P&L value `q`, the displayed sign is `"+"`
exactly when `q ≥ 0` and the empty string (no explicit symbol) exactly when
`q < 0`, and the colour is the gain colour exactly when `q > 0`, the loss
colour exactly when `q < 0`, and the muted neutral colour exactly when
`q = 0` — uniformly in the per-position view and in the portfolio totals.  In
particular an exactly-zero P&L is in the `"+"` sign bucket but is coloured
neutral, not as a gain. -/
theorem c8_sign_color_amended (p : PositionRow) (m : PnlMode) (q : ℚ)
    (t : PortfolioTotals) (hp : (positionView p m).pnlValue = some q) :
    (((positionView p m).sign = "+" ↔ 0 ≤ q) ∧
     ((positionView p m).sign = "" ↔ q < 0) ∧
     ((positionView p m).pnlColor = POSITIVE ↔ 0 < q) ∧
     ((positionView p m).pnlColor = NEGATIVE ↔ q < 0) ∧
     ((positionView p m).pnlColor = TEXT_MUTED ↔ q = 0)) ∧
    ((totalsSign t = "+" ↔ 0 ≤ t.pnlValue) ∧
     (totalsSign t = "" ↔ t.pnlValue < 0) ∧
     (totalColor t = POSITIVE ↔ 0 < t.pnlValue) ∧
     (totalColor t = NEGATIVE ↔ t.pnlValue < 0) ∧
     (totalColor t = TEXT_MUTED ↔ t.pnlValue = 0)) := by
  have hchar : ∀ r : ℚ,
      ((if 0 ≤ r then "+" else "") = "+" ↔ 0 ≤ r) ∧
      ((if 0 ≤ r then "+" else "") = "" ↔ r < 0) ∧
      ((if 0 < r then POSITIVE else if r < 0 then NEGATIVE else TEXT_MUTED) = POSITIVE ↔ 0 < r) ∧
      ((if 0 < r then POSITIVE else if r < 0 then NEGATIVE else TEXT_MUTED) = NEGATIVE ↔ r < 0) ∧
      ((if 0 < r then POSITIVE else if r < 0 then NEGATIVE else TEXT_MUTED) = TEXT_MUTED ↔ r = 0) := by
    intro r
    refine ⟨?_, ?_, ?_, ?_, ?_⟩ <;> split_ifs <;>
      simp_all [POSITIVE, NEGATIVE, TEXT_MUTED] <;> linarith
  constructor
  · have hs := positionView_sign_eq p m
    have hc := positionView_color_eq p m
    rw [hp] at hs hc
    simp only [jsGe, jsGt, jsLt, decide_eq_true_eq] at hs hc
    rw [hs, hc]
    exact hchar q
  · exact hchar t.pnlValue

/-- Witness for **C8 amended**: applied to Scenario A (`net_pnl = 20`) and the
totals of the empty list (`pnlValue = 0`): the position shows a `"+"` sign
and the gain colour, while the zero total shows a `"+"` sign but the neutral
muted colour. -/
theorem c8_sign_color_amended_witness :
    (positionView scenarioA .NET).sign = "+" ∧
    (positionView scenarioA .NET).pnlColor = POSITIVE ∧
    totalsSign (totals [] .NET) = "+" ∧
    totalColor (totals [] .NET) = TEXT_MUTED := by
  have h := c8_sign_color_amended scenarioA .NET 20 (totals [] .NET) rfl
  have h0 : (totals [] .NET).pnlValue = 0 := by simp [totals, finalizeTotals]
  exact ⟨h.1.1.mpr (by norm_num), h.1.2.2.1.mpr (by norm_num),
    h.2.1.mpr (by rw [h0]), h.2.2.2.2.2.mpr h0⟩

/-- The `positions.forEach` pass of `totals` embedded with explicit state
passing: the callback body (lines 118–129) reads the current element and
assigns only the four local accumulator variables, so each traversed list
cell is passed through unchanged; the pass returns the list as left behind
together with the final accumulator. -/
def totalsForEach (m : PnlMode) : List PositionRow → Acc → List PositionRow × Acc
  | [], acc => ([], acc)
  | p :: ps, acc =>
      let acc' := totalsStep m acc p
      let rest := totalsForEach m ps acc'
      (p :: rest.1, rest.2)

/-- One full evaluation of the `totals` memo as a state-passing computation:
the position list after the pass, and the finalised totals. -/
def totalsPass (positions : List PositionRow) (m : PnlMode) :
    List PositionRow × PortfolioTotals :=
  let r := totalsForEach m positions ⟨0, 0, 0, 0⟩
  (r.1, finalizeTotals r.2)

lemma totalsForEach_eq (m : PnlMode) (ps : List PositionRow) (a : Acc) :
    totalsForEach m ps a = (ps, ps.foldl (totalsStep m) a) := by
  induction ps generalizing a with
  | nil => rfl
  | cons p ps ih => simp [totalsForEach, ih, List.foldl_cons]

/-- **C9.** The aggregation is pure and deterministic in `(positions, mode)`:
the pass leaves the input list unchanged, its result coincides with the pure
function `totals`, two evaluations on the same input are equal, and
recomputing after switching the mode away and back — each pass re-reading the
list the previous pass left behind — returns the original totals. -/
theorem c9_pure_deterministic_no_mutation (ps : List PositionRow) (m m' : PnlMode) :
    (totalsPass ps m).1 = ps ∧
    (totalsPass ps m).2 = totals ps m ∧
    totalsPass ps m = totalsPass ps m ∧
    (totalsPass ((totalsPass ((totalsPass ps m).1) m').1) m).2 = (totalsPass ps m).2 := by
  have hfst : ∀ (qs : List PositionRow) (mm : PnlMode), (totalsPass qs mm).1 = qs := by
    intro qs mm
    simp [totalsPass, totalsForEach_eq]
  refine ⟨hfst ps m, ?_, rfl, ?_⟩
  · simp [totalsPass, totalsForEach_eq, totals]
  · rw [hfst ps m, hfst ps m']

/-- **C10.** The totals are invariant under permutation of the position list:
for every mode, a reordered list yields the same `PortfolioTotals` (all five
fields, `pnlPercent` included). -/
theorem c10_totals_permutation_invariant (ps qs : List PositionRow) (m : PnlMode)
    (h : ps.Perm qs) : totals ps m = totals qs m := by
  have h1 := (h.map (fun p => numOr0 p.current_value_idr)).sum_eq
  have h2 := (h.map (modeBase m)).sum_eq
  have h3 := (h.map (modePnl m)).sum_eq
  have h4 := (h.map (modeRealized m)).sum_eq
  rw [totals_eq_sums, totals_eq_sums, h1, h2, h3, h4]

/-- Witness for **C10**: swapping the two positions of the
`[scenarioA, scenarioC]` list leaves the BROKER-mode totals unchanged. -/
theorem c10_totals_permutation_invariant_witness :
    totals [scenarioA, scenarioC] .BROKER = totals [scenarioC, scenarioA] .BROKER :=
  c10_totals_permutation_invariant [scenarioA, scenarioC] [scenarioC, scenarioA]
    .BROKER (List.Perm.swap scenarioC scenarioA [])

end BPP
